import Mathlib

/-!
# Verification of the insider-dashboard calculation core (`src/app.py`)

Shallow embedding of the pure calculation layer of `app.py`:

* `add_technical_indicators` — SMA(20)/RSI(14) augmentation of a price table
  (pandas column assignment mutates the argument frame in place);
* `load_mock_data` / `fetch_insider_data` — mock vs live provenance of the
  insider-trade table; on the live path rows are filtered to
  `Trade Type == "Purchase"` and `Trade Date` is coerced (`errors="coerce"`),
  while the trailing window (`daysago`) and the minimum value (`vl`) are
  applied by the remote screener, i.e. encoded in the request URL only;
* `compute_most_bought` — `value_counts` per ticker, sorted descending;
* `get_filings_for_ticker`, `simulate_returns_for_ticker` and the
  clustered-portfolio loop of the Streamlit layout section.

Pandas/NumPy float cells are modelled by `PVal` (an exact rational plus the
IEEE specials `inf`, `-inf`, `nan`); dates are modelled as civil day numbers
(`Int`), with `parseDate` covering the ISO `YYYY-MM-DD` date-only format of
the feeds and returning `none` (pandas `NaT`) otherwise.
`simulate_returns_for_ticker` returns `Except` because its average-date
computation (line 135) sits outside its `try`: on a string-dated
(object-dtype, mock-provenance) frame `dropna().mean()` raises `TypeError`,
which propagates to the caller and aborts the clustered-portfolio loop;
only lookup failures are caught.

The sell-side signal detection and the local trailing-window filter of the
specified `detect_signals` operation have no implementation in `src/`
(windowing happens on the remote server); those operations are modelled
from the spec and are marked `Modelled from the spec:` in their doc strings.
-/

/-- A pandas/NumPy float cell: an exact rational, `inf`, `-inf`, or `NaN`. -/
inductive PVal where
  | num (q : ℚ)
  | nan
  | inf
  | ninf
  deriving DecidableEq, Repr

namespace PVal

/-- IEEE-style negation. -/
def neg : PVal → PVal
  | num a => num (-a)
  | nan => nan
  | inf => ninf
  | ninf => inf

/-- IEEE-style addition (`inf + -inf = NaN`). -/
def add : PVal → PVal → PVal
  | nan, _ => nan
  | _, nan => nan
  | inf, ninf => nan
  | ninf, inf => nan
  | inf, _ => inf
  | _, inf => inf
  | ninf, _ => ninf
  | _, ninf => ninf
  | num a, num b => num (a + b)

/-- IEEE-style subtraction. -/
def sub (a b : PVal) : PVal := add a (neg b)

/-- IEEE-style division as produced by pandas element-wise `/`:
division of a nonzero value by zero gives a signed infinity, `0/0` gives
`NaN`, and a finite value over an infinity gives `0`. -/
def div : PVal → PVal → PVal
  | nan, _ => nan
  | _, nan => nan
  | num a, num b =>
      if b = 0 then (if a = 0 then nan else if 0 < a then inf else ninf)
      else num (a / b)
  | num _, inf => num 0
  | num _, ninf => num 0
  | inf, num b => if b < 0 then ninf else inf
  | ninf, num b => if b < 0 then inf else ninf
  | inf, inf => nan
  | inf, ninf => nan
  | ninf, inf => nan
  | ninf, ninf => nan

/-- `v > 0` as pandas evaluates it (`NaN > 0` is `False`). -/
def gtZero : PVal → Bool
  | num a => decide (0 < a)
  | inf => true
  | _ => false

/-- `v < 0` as pandas evaluates it (`NaN < 0` is `False`). -/
def ltZero : PVal → Bool
  | num a => decide (a < 0)
  | ninf => true
  | _ => false

end PVal

/-- Mean of a window of cells: any `NaN` (or mixed-infinity) cell poisons the
sum exactly as NumPy's does. -/
def pvalMean (w : ℕ) (l : List PVal) : PVal :=
  PVal.div (l.foldl PVal.add (PVal.num 0)) (PVal.num w)

/-- `Series.rolling(window=w).mean()`: entry `i` is the mean of the last `w`
cells when at least `w` cells are available, `NaN` otherwise (the default
`min_periods` equals the window size). -/
def rollingMean (w : ℕ) (xs : List PVal) : List PVal :=
  (List.range xs.length).map (fun i =>
    if i + 1 < w then PVal.nan
    else pvalMean w ((xs.take (i + 1)).drop (i + 1 - w)))

/-- `Series.diff()`: first entry `NaN`, then consecutive differences. -/
def diffList (xs : List PVal) : List PVal :=
  match xs with
  | [] => []
  | _ :: t => PVal.nan :: List.zipWith PVal.sub t xs

/-- A price DataFrame: association list of (column name, column cells). -/
abbrev PriceTable := List (String × List PVal)

/-- Column read `df[name]` (the source assumes the column is present; a
missing column would raise `KeyError`, a case outside every claim). -/
def getCol (df : PriceTable) (name : String) : List PVal :=
  ((df.find? (fun c => c.1 = name)).map (fun c => c.2)).getD []

/-- First matching column, name and cells (`none` when absent). -/
def getColEntry (df : PriceTable) (name : String) : Option (String × List PVal) :=
  df.find? (fun c => c.1 = name)

/-- Column assignment `df[name] = v`: replace in place when present,
append at the right end otherwise — exactly pandas' behaviour. -/
def setCol (df : PriceTable) (name : String) (v : List PVal) : PriceTable :=
  if df.any (fun c => c.1 = name) then
    df.map (fun c => if c.1 = name then (name, v) else c)
  else df ++ [(name, v)]

/-- `add_technical_indicators` (`app.py` lines 50–61): adds `SMA_20` and
`RSI` columns computed from `Close`. The returned frame is the argument
frame: the column assignments happen in place. -/
def addTechnicalIndicators (df : PriceTable) : PriceTable :=
  let close := getCol df "Close"
  let df1 := setCol df "SMA_20" (rollingMean 20 close)
  let delta := diffList close
  let gain := rollingMean 14 (delta.map (fun v => if v.gtZero then v else PVal.num 0))
  let loss := rollingMean 14
    ((delta.map (fun v => if v.ltZero then v else PVal.num 0)).map PVal.neg)
  let rs := List.zipWith PVal.div gain loss
  let rsi := rs.map (fun v =>
    PVal.sub (PVal.num 100) (PVal.div (PVal.num 100) (PVal.add (PVal.num 1) v)))
  setCol df1 "RSI" rsi

/-- The caller's frame after `add_technical_indicators(df)` returns: the
function assigned columns on the very object the caller passed, so the
caller observes the augmented frame. -/
def addTechnicalIndicators_callerAfter (df : PriceTable) : PriceTable :=
  addTechnicalIndicators df

/-! ## Dates -/

/-- Civil day number of a proleptic-Gregorian date (days since 1970-01-01),
the standard era-based conversion; monotone in calendar order, so day
arithmetic models `timedelta` arithmetic exactly. -/
def daysFromCivil (y m d : Int) : Int :=
  let y1 : Int := if m ≤ 2 then y - 1 else y
  let era : Int := (if 0 ≤ y1 then y1 else y1 - 399) / 400
  let yoe : Int := y1 - era * 400
  let mp : Int := if 2 < m then m - 3 else m + 9
  let doy : Int := (153 * mp + 2) / 5 + d - 1
  let doe : Int := yoe * 365 + yoe / 4 - yoe / 100 + doy
  era * 146097 + doe - 719468

/-- Number of days in a month of the Gregorian calendar. -/
def daysInMonth (y m : Int) : Int :=
  if m = 2 then (if y % 4 = 0 ∧ (y % 100 ≠ 0 ∨ y % 400 = 0) then 29 else 28)
  else if m = 4 ∨ m = 6 ∨ m = 9 ∨ m = 11 then 30
  else 31

/-- Split a character list on `-`. -/
def splitDash : List Char → List (List Char)
  | [] => [[]]
  | c :: cs =>
    let rest := splitDash cs
    if c = '-' then [] :: rest
    else match rest with
      | [] => [[c]]
      | g :: gs => (c :: g) :: gs

/-- Numeric value of a digit string (caller checks digits first). -/
def natOfDigits (cs : List Char) : ℕ :=
  cs.foldl (fun acc c => acc * 10 + (c.toNat - '0'.toNat)) 0

/-- `pd.to_datetime(s, errors="coerce")` restricted to the ISO date-only
strings of the feeds: `YYYY-MM-DD` with a valid calendar date parses to its
civil day number, anything else coerces to `NaT` (`none`). Never raises: a
total function into `Option`. -/
def parseDate (s : String) : Option Int :=
  match splitDash s.toList with
  | [ys, ms, ds] =>
    if ys.length = 4 ∧ ms.length = 2 ∧ ds.length = 2 ∧
        (ys ++ ms ++ ds).all (fun c => c.isDigit) then
      let y : Int := natOfDigits ys
      let m : Int := natOfDigits ms
      let d : Int := natOfDigits ds
      if 1 ≤ m ∧ m ≤ 12 ∧ 1 ≤ d ∧ d ≤ daysInMonth y m then
        some (daysFromCivil y m d)
      else none
    else none
  | _ => none

/-! ## The insider-trade table -/

/-- The `Trade Date` cell: a raw string (as `read_csv` leaves it on the mock
path) or a parsed datetime, with `dt none` standing for `NaT`. -/
inductive DateVal where
  | str (s : String)
  | dt (d : Option Int)
  deriving DecidableEq, Repr, Inhabited

/-- What `pd.to_datetime(col, errors="coerce")` does to one cell: a raw
string is parsed (to `NaT` on failure), an already-parsed cell passes
through. -/
def coerceDate : DateVal → DateVal
  | DateVal.str s => DateVal.dt (parseDate s)
  | DateVal.dt d => DateVal.dt d

/-- One row of the insider table; the columns the calculations read. -/
structure Row where
  ticker : String
  tradeType : String
  tradeDate : DateVal
  deriving DecidableEq, Repr, Inhabited

/-- `load_mock_data` (`app.py` lines 68–76): the local CSV verbatim, or an
empty frame when the file is missing (`FileNotFoundError`). -/
def loadMockData (csvFile : Option (List Row)) : List Row :=
  csvFile.getD []

/-- The live-path post-processing of `fetch_insider_data` (`app.py` lines
99–107): keep only `Trade Type == "Purchase"` rows, then coerce
`Trade Date` (`errors="coerce"` turns an unparsable date into `NaT`,
keeping the row). -/
def postProcessLive (rows : List Row) : List Row :=
  (rows.filter (fun r => r.tradeType = "Purchase")).map (fun r =>
    { r with tradeDate := coerceDate r.tradeDate })

/-- `fetch_insider_data` (`app.py` lines 79–107). `live` stands for the
remote screener: a function of the `daysago` and `vl` request parameters,
returning the CSV body or a fetch failure. On the mock path the local CSV
is returned verbatim; on the live path a failed fetch falls back to the
mock CSV and a successful fetch is post-processed. -/
def fetchInsiderData (useMock : Bool) (csvFile : Option (List Row))
    (live : ℕ → ℕ → Except Unit (List Row)) (daysBack minValue : ℕ) : List Row :=
  if useMock then loadMockData csvFile
  else
    match live daysBack minValue with
    | Except.error _ => loadMockData csvFile
    | Except.ok rows => postProcessLive rows

/-- Rows of `df` bearing ticker `t`. -/
def countTicker (rows : List Row) (t : String) : ℕ :=
  (rows.filter (fun r => r.ticker = t)).length

/-- Rows of `df` bearing ticker `t` whose trade type is exactly
`"Purchase"`. -/
def purchaseCount (rows : List Row) (t : String) : ℕ :=
  (rows.filter (fun r => r.tradeType = "Purchase" ∧ r.ticker = t)).length

/-- Distinct values in first-occurrence order, as the `value_counts`
hash table enumerates its keys. -/
def dedupFirst : List String → List String
  | [] => []
  | a :: as => a :: (dedupFirst as).filter (fun x => x ≠ a)

/-- The frame returned by `compute_most_bought`: its two columns and its
(ticker, count) rows. -/
structure CountTable where
  cols : List String
  rows : List (String × ℕ)
  deriving DecidableEq, Repr

/-- `compute_most_bought` (`app.py` lines 109–117): per-ticker row counts
via `value_counts`, sorted by count descending, columns renamed to
`Ticker` / `Buy Count`; an empty frame keeps the two columns with no
rows. (In the embedding every row has a `Ticker` field, so the
missing-column guard of line 113 reduces to the emptiness test.) -/
def computeMostBought (df : List Row) : CountTable :=
  if df.isEmpty then ⟨["Ticker", "Buy Count"], []⟩
  else
    let pairs := (dedupFirst (df.map (fun r => r.ticker))).map
      (fun t => (t, countTicker df t))
    ⟨["Ticker", "Buy Count"],
      List.insertionSort (fun a b : String × ℕ => b.2 ≤ a.2) pairs⟩

/-- `get_filings_for_ticker` (`app.py` lines 119–126): the rows of `df`
bearing `ticker`, most recent `Trade Date` first (`NaT` last, as
`sort_values` places missing values last). The `.copy()` means the caller's
frame is untouched. This is the sort key: `a` before `b` when `a`'s date is
at least `b`'s, missing dates last. -/
def dateDescLe (a b : Row) : Bool :=
  match a.tradeDate, b.tradeDate with
  | DateVal.dt (some da), DateVal.dt (some db) => decide (db ≤ da)
  | DateVal.dt none, DateVal.dt (some _) => false
  | _, _ => true

/-- `get_filings_for_ticker` body, continued: see doc above. -/
def getFilingsForTicker (df : List Row) (ticker : String) : List Row :=
  List.insertionSort (fun a b : Row => dateDescLe a b = true)
    (df.filter (fun r => r.ticker = ticker))

/-- The caller's frame after `get_filings_for_ticker(df, t)`: unchanged —
the function works on `df[df["Ticker"] == ticker].copy()`. -/
def getFilingsForTicker_callerAfter (df : List Row) (_ticker : String) : List Row :=
  df

/-- The caller's frame after `compute_most_bought(df)`: unchanged —
`value_counts().reset_index()` builds a fresh frame. -/
def computeMostBought_callerAfter (df : List Row) : List Row :=
  df

/-! ## Return simulation -/

/-- Python's `round(x, 2)` tie rule: round half to even (banker's
rounding), on our exact-rational model of the float values. -/
def roundHalfEven (x : ℚ) : ℤ :=
  let f : ℤ := ⌊x⌋
  let r : ℚ := x - (f : ℚ)
  if r < 1/2 then f
  else if 1/2 < r then f + 1
  else if f % 2 = 0 then f else f + 1

/-- `round(x, 2)`. -/
def round2 (x : ℚ) : ℚ := (roundHalfEven (x * 100) : ℚ) / 100

/-- The frame's `Trade Date` column still holds raw-string cells, i.e. it
is an object-dtype column. This is the mock provenance: `read_csv` leaves
the dates as strings, `dropna()` keeps them, and `.mean()` at `app.py`
line 135 — outside the `try` — raises `TypeError` and aborts the caller.
On the live provenance the column was coerced to datetime
(`errors="coerce"`), every cell is `DateVal.dt`, and this is `false`. -/
def hasStrDate (filings : List Row) : Bool :=
  filings.any (fun r =>
    match r.tradeDate with
    | DateVal.str _ => true
    | DateVal.dt _ => false)

/-- The datetime cells of a datetime-dtype `Trade Date` column, `NaT`
excluded — what `df["Trade Date"].dropna()` yields there. Meaningful only
when `hasStrDate` is `false`: on an object-dtype (string-dated) column the
source raises `TypeError` before any mean is taken, a path
`simulateReturnsForTicker` models separately via `hasStrDate`. -/
def datesOf (filings : List Row) : List Int :=
  filings.filterMap (fun r =>
    match r.tradeDate with
    | DateVal.dt (some d) => some d
    | _ => none)

/-- `df["Trade Date"].dropna().mean().date()` on a datetime column:
arithmetic mean of the timestamps truncated to a date, i.e. the floor of
the mean day number. `none` when every date is `NaT` (there `mean()` is
`NaT` and, depending on the pandas version, `.date()` faults or `NaT`
flows into `strftime` and is caught inside the `try`; no claim reaches
this case). -/
def avgDateOf (filings : List Row) : Option Int :=
  match datesOf filings with
  | [] => none
  | d :: ds =>
    some ⌊(((d :: ds).foldl (· + ·) 0 : ℤ) : ℚ) / ((d :: ds).length : ℚ)⌋

/-- The single row reported by `simulate_returns_for_ticker`. -/
structure RetRow where
  ticker : String
  avgTradeDate : Int
  entryPrice : ℚ
  latestPrice : ℚ
  returnPct : ℚ
  deriving DecidableEq, Repr

/-- `simulate_returns_for_ticker` (`app.py` lines 128–157). `download`
stands for the `yf.download` collaborator: given the ticker and the start
date it returns the close-price history, or raises (`Except.error`). The
result is `Except` because line 135 sits OUTSIDE the `try`: on a nonempty
string-dated (object-dtype, mock-provenance) frame
`df["Trade Date"].dropna().mean()` raises `TypeError`, which propagates
to the caller (`Except.error ()`). Otherwise: an empty filings frame
returns the empty frame before line 135; a raised lookup or an empty
history yields the empty frame (the `try` catches the lookup); else the
entry price is the first close, the latest price the last close, and the
reported row carries each price and the percent return rounded to 2
decimals (the return is computed from the unrounded prices). -/
def simulateReturnsForTicker (dfFilings : List Row)
    (download : String → Int → Except Unit (List ℚ)) : Except Unit (List RetRow) :=
  match dfFilings with
  | [] => Except.ok []
  | f :: rest =>
    if hasStrDate (f :: rest) then Except.error ()
    else
      match avgDateOf (f :: rest) with
      | none => Except.ok []
      | some avgDate =>
        match download f.ticker avgDate with
        | Except.error _ => Except.ok []
        | Except.ok hist =>
          match hist with
          | [] => Except.ok []
          | h :: t =>
            let entry := h
            let latest := (h :: t).getLast (List.cons_ne_nil h t)
            let retPct := ((latest - entry) / entry) * 100
            Except.ok [⟨f.ticker, avgDate, round2 entry, round2 latest, round2 retPct⟩]

/-- The rows of a non-raising simulation result (`[]` for a raise; used
only to state the aggregate where raises are already excluded). -/
def okRows : Except Unit (List RetRow) → List RetRow
  | Except.ok rs => rs
  | Except.error _ => []

/-- The caller's filings frame after `simulate_returns_for_ticker`:
unchanged — the function only reads it and builds a fresh one-row frame. -/
def simulateReturnsForTicker_callerAfter (dfFilings : List Row)
    (_download : String → Int → Except Unit (List ℚ)) : List Row :=
  dfFilings

/-- The clustered-buys list (`app.py` line 270):
`df_counts[df_counts["Buy Count"] >= 3]["Ticker"].tolist()`. -/
def clusteredOf (dfCounts : CountTable) : List String :=
  (dfCounts.rows.filter (fun p => 3 ≤ p.2)).map (fun p => p.1)

/-- The body of the clustered-portfolio loop: sequential, appending the
reported row when there is one; an exception raised by the simulator
(the line-135 `TypeError` on string-dated frames) aborts the whole loop
and propagates. -/
def portfolioLoop (dfInsiders : List Row)
    (download : String → Int → Except Unit (List ℚ)) :
    List String → List RetRow → Except Unit (List RetRow)
  | [], acc => Except.ok acc
  | t :: ts, acc =>
    match simulateReturnsForTicker (getFilingsForTicker dfInsiders t) download with
    | Except.error e => Except.error e
    | Except.ok [] => portfolioLoop dfInsiders download ts acc
    | Except.ok (r :: _) => portfolioLoop dfInsiders download ts (acc ++ [r])

/-- The clustered-portfolio loop (`app.py` lines 273–281): for each
clustered ticker simulate the return over its filings and append the
reported row when there is one; a ticker whose lookup failed or returned
nothing is skipped and the loop continues over the rest. -/
def portfolioRows (dfInsiders : List Row) (clustered : List String)
    (download : String → Int → Except Unit (List ℚ)) : Except Unit (List RetRow) :=
  portfolioLoop dfInsiders download clustered []

/-! ## The spec-side `detect_signals`

The repository's source delegates both the trailing window (the `daysago`
request parameter) and the sell side to collaborators that are not part of
`src/`; the full `detect_signals` operation exists only in the spec. The
definitions below are therefore modelled from the spec's own words
(§4.2), to settle the claims that concern the missing parts. -/

/-- One trade-disclosure record as the spec's `TradeRecord` (§3). -/
structure SpecRecord where
  actor : String
  ticker : String
  transactionType : String
  transactionDate : String
  deriving DecidableEq, Repr

/-- `needle` occurs contiguously at the head of `hay`. -/
def listStartsWith : List Char → List Char → Bool
  | _, [] => true
  | [], _ :: _ => false
  | a :: as, b :: bs => a = b && listStartsWith as bs

/-- `needle` occurs contiguously somewhere in `hay`. -/
def listContainsSub : List Char → List Char → Bool
  | [], need => need.isEmpty
  | a :: as, need => listStartsWith (a :: as) need || listContainsSub as need

/-- Case-sensitive substring containment, Python's `needle in hay`. -/
def strContainsSub (hay needle : String) : Bool :=
  listContainsSub hay.toList needle.toList

/-- Modelled from the spec: step 1 of `detect_signals` (§4.2) — parse every
record's `transaction_date`, dropping records that fail to parse, and
rejecting strings longer than 25 characters; src has no local date
parser for signal detection. Tolerates the date-only ISO form. -/
def parseSpecDate (s : String) : Option Int :=
  if 25 < s.length then none else parseDate s

/-- Modelled from the spec: steps 1–2 of `detect_signals` (§4.2) — the
`recent` table: records with a parsable date within the inclusive trailing
window `[now − daysBack, now]`; src applies no local window filter (the
window is the remote `daysago` request parameter). -/
def recentOf (records : List SpecRecord) (now daysBack : Int) :
    List (SpecRecord × Int) :=
  (records.filterMap (fun r => (parseSpecDate r.transactionDate).map (fun d => (r, d)))).filter
    (fun p => now - daysBack ≤ p.2)

/-- Modelled from the spec: the buy partition of `recent` —
`transaction_type == "Purchase"`, exact match (§4.2 step 3). -/
def buysOf (recent : List (SpecRecord × Int)) : List (SpecRecord × Int) :=
  recent.filter (fun p => p.1.transactionType = "Purchase")

/-- Modelled from the spec: the sell partition of `recent` —
`transaction_type` contains the substring `"Sale"`, case-sensitive
(§4.2 step 3). -/
def sellsOf (recent : List (SpecRecord × Int)) : List (SpecRecord × Int) :=
  recent.filter (fun p => strContainsSub p.1.transactionType "Sale")

/-- Rows of a partition bearing ticker `t` (§4.2 step 4). -/
def specCount (part : List (SpecRecord × Int)) (t : String) : ℕ :=
  (part.filter (fun p => p.1.ticker = t)).length

/-- Modelled from the spec: the tickers of a partition whose row count
meets the threshold (§4.2 step 5); membership is what the claims are
about, so the display sorting of step 6 is not modelled. -/
def signalTickers (part : List (SpecRecord × Int)) (minTrades : ℕ) : List String :=
  (dedupFirst (part.map (fun p => p.1.ticker))).filter
    (fun t => minTrades ≤ specCount part t)

/-- Modelled from the spec: `detect_signals(records, now, days_back,
min_trades)` (§4.2) — the buy-cluster tickers, the sell-cluster tickers
and the filtered `recent` table. -/
def detectSignals (records : List SpecRecord) (now daysBack : Int)
    (minTrades : ℕ) :
    List String × List String × List (SpecRecord × Int) :=
  let recent := recentOf records now daysBack
  (signalTickers (buysOf recent) minTrades,
   signalTickers (sellsOf recent) minTrades,
   recent)

/-! ## Helper lemmas -/

theorem mem_dedupFirst {x : String} : ∀ {l : List String}, x ∈ dedupFirst l ↔ x ∈ l
  | [] => Iff.rfl
  | a :: as => by
    simp only [dedupFirst, List.mem_cons, List.mem_filter, mem_dedupFirst (l := as),
      decide_eq_true_eq]
    by_cases h : x = a <;> simp [h]

theorem nodup_dedupFirst : ∀ l : List String, (dedupFirst l).Nodup
  | [] => List.nodup_nil
  | a :: as => by
    simp only [dedupFirst, List.nodup_cons]
    refine ⟨fun hmem => ?_, (nodup_dedupFirst as).filter _⟩
    simp [List.mem_filter] at hmem

theorem countTicker_pos_iff {df : List Row} {t : String} :
    0 < countTicker df t ↔ t ∈ df.map Row.ticker := by
  induction df with
  | nil => simp [countTicker]
  | cons r rs ih =>
    by_cases h : r.ticker = t
    · simp [countTicker, List.filter_cons, h]
    · have hne : ¬ t = r.ticker := fun hh => h hh.symm
      simp only [countTicker, List.filter_cons, List.map_cons, List.mem_cons] at ih ⊢
      simp [h, hne, ih]

theorem mem_computeMostBought_rows {df : List Row} {t : String} {c : ℕ} :
    (t, c) ∈ (computeMostBought df).rows ↔
      0 < countTicker df t ∧ c = countTicker df t := by
  unfold computeMostBought
  by_cases h : df.isEmpty
  · have : df = [] := List.isEmpty_iff.mp h
    subst this
    simp [countTicker]
  · simp only [h, if_neg, Bool.false_eq_true, not_false_iff, ite_false]
    rw [List.mem_insertionSort]
    simp only [List.mem_map, Prod.mk.injEq]
    constructor
    · rintro ⟨s, hs, rfl, rfl⟩
      exact ⟨countTicker_pos_iff.mpr (mem_dedupFirst.mp hs), rfl⟩
    · rintro ⟨hpos, rfl⟩
      exact ⟨t, mem_dedupFirst.mpr (countTicker_pos_iff.mp hpos), rfl, rfl⟩

theorem mem_clusteredOf {ct : CountTable} {t : String} :
    t ∈ clusteredOf ct ↔ ∃ c, (t, c) ∈ ct.rows ∧ 3 ≤ c := by
  simp only [clusteredOf, List.mem_map, List.mem_filter, decide_eq_true_eq]
  constructor
  · rintro ⟨⟨s, c⟩, ⟨hm, hc⟩, rfl⟩
    exact ⟨c, hm, hc⟩
  · rintro ⟨c, hm, hc⟩
    exact ⟨(t, c), ⟨hm, hc⟩, rfl⟩

theorem countTicker_postProcessLive (rows : List Row) (t : String) :
    countTicker (postProcessLive rows) t = purchaseCount rows t := by
  induction rows with
  | nil => rfl
  | cons r rs ih =>
    unfold postProcessLive countTicker purchaseCount at ih ⊢
    by_cases hp : r.tradeType = "Purchase"
    · by_cases ht : r.ticker = t
      · simp [List.filter_cons, hp, ht, ih]
      · simp [List.filter_cons, hp, ht, ih]
    · simp [List.filter_cons, hp, ih]

/-! ## Claim theorems -/

/-- C10: for every input table, the per-ticker buy-count table of
`compute_most_bought` has each ticker in at most one row, each row's count
equal to the exact number of input rows bearing that ticker, every count
positive, and the rows ordered by non-increasing count. -/
theorem computeMostBought_invariants (df : List Row) :
    ((computeMostBought df).rows.map Prod.fst).Nodup ∧
    (∀ p, p ∈ (computeMostBought df).rows → p.2 = countTicker df p.1 ∧ 0 < p.2) ∧
    List.Sorted (fun a b : String × ℕ => b.2 ≤ a.2) (computeMostBought df).rows := by
  refine ⟨?_, ?_, ?_⟩
  · by_cases h : df.isEmpty
    · simp [computeMostBought, h]
    · simp only [computeMostBought, h, ite_false, Bool.false_eq_true]
      have hperm := (List.perm_insertionSort (fun a b : String × ℕ => b.2 ≤ a.2)
        ((dedupFirst (df.map fun r => r.ticker)).map fun t => (t, countTicker df t))).map
        Prod.fst
      rw [hperm.nodup_iff, List.map_map]
      have hid : (Prod.fst ∘ fun t => (t, countTicker df t)) = id := rfl
      rw [hid, List.map_id]
      exact nodup_dedupFirst _
  · rintro ⟨t, c⟩ hp
    obtain ⟨hpos, hc⟩ := mem_computeMostBought_rows.mp hp
    exact ⟨hc, hc ▸ hpos⟩
  · by_cases h : df.isEmpty
    · simp [computeMostBought, h]
    · simp only [computeMostBought, h, ite_false, Bool.false_eq_true]
      haveI : IsTotal (String × ℕ) (fun a b => b.2 ≤ a.2) :=
        ⟨fun a b => Nat.le_total b.2 a.2⟩
      haveI : IsTrans (String × ℕ) (fun a b => b.2 ≤ a.2) :=
        ⟨fun _ _ _ h1 h2 => le_trans h2 h1⟩
      exact List.sorted_insertionSort _ _

/-- C10 witness: the invariants instantiated on a concrete one-row table. -/
theorem computeMostBought_invariants_witness :
    (("AAPL", 1) : String × ℕ).2
        = countTicker [⟨"AAPL", "Purchase", DateVal.dt none⟩] ("AAPL", 1).1 ∧
    0 < (("AAPL", 1) : String × ℕ).2 :=
  (computeMostBought_invariants [⟨"AAPL", "Purchase", DateVal.dt none⟩]).2.1
    ("AAPL", 1) (by decide)

/-- C1: on the fetched (window-scoped) table, a ticker is in the clustered
buy list (`Buy Count >= 3`, `app.py` line 270) iff the table has at least 3
rows for it whose trade type is exactly `"Purchase"`; rows of any other
trade type contribute nothing. The trailing window is the remote `daysago`
request parameter, so the fetched table is the window's contents. -/
theorem clusteredBuys_iff_purchaseCount (rows : List Row) (t : String) :
    t ∈ clusteredOf (computeMostBought (postProcessLive rows)) ↔
      3 ≤ purchaseCount rows t := by
  rw [mem_clusteredOf]
  constructor
  · rintro ⟨c, hm, hc⟩
    obtain ⟨-, rfl⟩ := mem_computeMostBought_rows.mp hm
    rwa [countTicker_postProcessLive] at hc
  · intro h
    refine ⟨purchaseCount rows t, ?_, h⟩
    rw [mem_computeMostBought_rows, countTicker_postProcessLive]
    exact ⟨by omega, rfl⟩

/-- C5: the empty input table yields degenerate, never-raising results: the
count table is empty with its two columns present, the clustered buy list
is empty, the return simulation is the empty frame, and (spec-modelled)
`detect_signals` returns two empty sets and an empty `recent`. -/
theorem emptyTable_degenerate :
    computeMostBought [] = ⟨["Ticker", "Buy Count"], []⟩ ∧
    clusteredOf (computeMostBought []) = [] ∧
    (∀ download, simulateReturnsForTicker [] download = Except.ok []) ∧
    (∀ now daysBack minTrades, detectSignals [] now daysBack minTrades = ([], [], [])) :=
  ⟨rfl, rfl, fun _ => rfl, fun _ _ _ => rfl⟩

/-- C9: the mock path returns the local CSV verbatim — no `"Purchase"`
filter, no date coercion — and ignores `days_back` / `min_value`, which
only parametrise the live request; a successful live fetch is filtered and
coerced. The last two conjuncts exhibit the non-uniform treatment on a
concrete `"Exchange"` row: the mock path keeps it, the live path drops
it. -/
theorem fetchInsiderData_mock_verbatim (csvFile : Option (List Row))
    (live : ℕ → ℕ → Except Unit (List Row)) (daysBack minValue : ℕ) :
    fetchInsiderData true csvFile live daysBack minValue = loadMockData csvFile ∧
    (∀ rows, live daysBack minValue = Except.ok rows →
      fetchInsiderData false csvFile live daysBack minValue = postProcessLive rows) ∧
    fetchInsiderData true (some [⟨"XYZ", "Exchange", DateVal.str "2024-01-05"⟩])
        live daysBack minValue
      = [⟨"XYZ", "Exchange", DateVal.str "2024-01-05"⟩] ∧
    fetchInsiderData false (some [])
        (fun _ _ => Except.ok [⟨"XYZ", "Exchange", DateVal.str "2024-01-05"⟩])
        daysBack minValue
      = [] := by
  refine ⟨rfl, fun rows h => ?_, rfl, rfl⟩
  simp [fetchInsiderData, h]

/-- C9 witness: the theorem applied at a concrete live collaborator,
discharging the successful-fetch hypothesis. -/
theorem fetchInsiderData_mock_verbatim_witness :
    fetchInsiderData false none
        (fun _ _ => Except.ok [⟨"AAPL", "Purchase", DateVal.str "2024-01-05"⟩]) 14 10000
      = postProcessLive [⟨"AAPL", "Purchase", DateVal.str "2024-01-05"⟩] :=
  (fetchInsiderData_mock_verbatim none
      (fun _ _ => Except.ok [⟨"AAPL", "Purchase", DateVal.str "2024-01-05"⟩]) 14 10000).2.1
    [⟨"AAPL", "Purchase", DateVal.str "2024-01-05"⟩] rfl

/-- C6 counterexample: a `"Purchase"` record whose `Trade Date` fails to
parse is NOT dropped — `errors="coerce"` keeps the row with a `NaT` date,
and the row still contributes to the downstream per-ticker buy count
(count 1, not 0 as the claim demands). -/
theorem unparsableDate_still_counted :
    postProcessLive [⟨"XYZ", "Purchase", DateVal.str "not-a-date"⟩]
      = [⟨"XYZ", "Purchase", DateVal.dt none⟩] ∧
    computeMostBought (postProcessLive [⟨"XYZ", "Purchase", DateVal.str "not-a-date"⟩])
      = ⟨["Ticker", "Buy Count"], [("XYZ", 1)]⟩ := by
  exact ⟨by decide, by decide⟩

/-- C6 amended: a record whose `transaction_date` fails to parse is kept
with a null (`NaT`) date rather than dropped — it still appears in the
post-processed table and contributes to every per-ticker count exactly as
a parsable-dated record would — and parsing failure never raises: the
unparsable string coerces to `NaT`. -/
theorem unparsableDate_coerced_not_dropped (rows : List Row) (t : String) :
    countTicker (postProcessLive rows) t = purchaseCount rows t ∧
    (∀ r, r ∈ rows → r.tradeType = "Purchase" →
      { r with tradeDate := coerceDate r.tradeDate } ∈ postProcessLive rows) ∧
    (∀ s, parseDate s = none → coerceDate (DateVal.str s) = DateVal.dt none) := by
  refine ⟨countTicker_postProcessLive rows t, fun r hr hp => ?_, fun s hs => ?_⟩
  · unfold postProcessLive
    exact List.mem_map_of_mem _ (List.mem_filter.mpr ⟨hr, by simp [hp]⟩)
  · simp [coerceDate, hs]

/-- C6 amended witness: instantiated on a concrete unparsable-dated
purchase record. -/
theorem unparsableDate_coerced_not_dropped_witness :
    (⟨"XYZ", "Purchase", DateVal.dt none⟩ : Row)
      ∈ postProcessLive [⟨"XYZ", "Purchase", DateVal.str "not"⟩] ∧
    coerceDate (DateVal.str "not") = DateVal.dt none :=
  ⟨(unparsableDate_coerced_not_dropped [⟨"XYZ", "Purchase", DateVal.str "not"⟩] "XYZ").2.1
      ⟨"XYZ", "Purchase", DateVal.str "not"⟩ (by decide) rfl,
   (unparsableDate_coerced_not_dropped [⟨"XYZ", "Purchase", DateVal.str "not"⟩] "XYZ").2.2
      "not" (by decide)⟩

theorem hasStrDate_getFilings (dfIns : List Row) (t : String)
    (h : hasStrDate dfIns = false) :
    hasStrDate (getFilingsForTicker dfIns t) = false := by
  unfold hasStrDate at h ⊢
  unfold getFilingsForTicker
  rw [List.any_eq_false] at h ⊢
  intro r hr
  exact h r (List.mem_filter.mp ((List.mem_insertionSort _).mp hr)).1

theorem simulateReturns_ok (dfFilings : List Row)
    (download : String → Int → Except Unit (List ℚ))
    (h : hasStrDate dfFilings = false) :
    ∃ rs, simulateReturnsForTicker dfFilings download = Except.ok rs ∧ rs.length ≤ 1 := by
  cases dfFilings with
  | nil => exact ⟨[], rfl, by simp⟩
  | cons f rest =>
    simp only [simulateReturnsForTicker, h, Bool.false_eq_true, if_false]
    cases hA : avgDateOf (f :: rest) with
    | none => exact ⟨[], rfl, by simp⟩
    | some avg =>
      cases hD : download f.ticker avg with
      | error e => exact ⟨[], by simp [hD], by simp⟩
      | ok hist =>
        cases hist with
        | nil => exact ⟨[], by simp [hD], by simp⟩
        | cons p ps =>
          refine ⟨[⟨f.ticker, avg, round2 p,
            round2 ((p :: ps).getLast (List.cons_ne_nil p ps)),
            round2 (((p :: ps).getLast (List.cons_ne_nil p ps) - p) / p * 100)⟩],
            by simp [hD], by simp⟩

theorem portfolioRows_eq_flatMap (dfIns : List Row) (cl : List String)
    (download : String → Int → Except Unit (List ℚ))
    (hdt : hasStrDate dfIns = false) :
    portfolioRows dfIns cl download =
      Except.ok (cl.flatMap (fun t =>
        okRows (simulateReturnsForTicker (getFilingsForTicker dfIns t) download))) := by
  suffices h : ∀ (cl : List String) (acc : List RetRow),
      portfolioLoop dfIns download cl acc =
        Except.ok (acc ++ cl.flatMap (fun t =>
          okRows (simulateReturnsForTicker (getFilingsForTicker dfIns t) download))) by
    simpa [portfolioRows] using h cl []
  intro cl
  induction cl with
  | nil =>
    intro acc
    simp [portfolioLoop]
  | cons t ts ih =>
    intro acc
    obtain ⟨rs, hrs, hlen⟩ :=
      simulateReturns_ok (getFilingsForTicker dfIns t) download
        (hasStrDate_getFilings dfIns t hdt)
    cases rs with
    | nil => simp [portfolioLoop, hrs, okRows, ih]
    | cons r tl =>
      have htl : tl = [] := by
        cases tl with
        | nil => rfl
        | cons a b => simp at hlen
      subst htl
      simp [portfolioLoop, hrs, okRows, ih]

/-- C4: a failed or empty price-history lookup never escapes the simulator
and never aborts the portfolio aggregation, on datetime-dated frames (the
live provenance, or any frame whose `Trade Date` column was coerced). The
scope hypothesis is forced by the source: on a string-dated mock frame
line 135 raises `TypeError` before any lookup happens — a fetch-provenance
fault, not a lookup failure. First conjunct: if the collaborator raises
(or returns an empty history) the simulator reports the empty frame — the
exception is caught by the `try`. Second: the loop finishes without
raising and the portfolio rows are exactly the concatenation of the
per-ticker simulation results over the clustered tickers. Third: removing
the tickers whose simulation came back empty changes nothing — the
aggregate holds exactly the tickers whose lookups succeeded, the loop
continuing over the rest. -/
theorem lookupFailure_skipped (dfIns : List Row) (cl : List String)
    (download : String → Int → Except Unit (List ℚ))
    (hdt : hasStrDate dfIns = false) :
    (∀ dfFilings, hasStrDate dfFilings = false →
      (∀ tk d, download tk d = Except.error () ∨ download tk d = Except.ok []) →
      simulateReturnsForTicker dfFilings download = Except.ok []) ∧
    portfolioRows dfIns cl download =
      Except.ok (cl.flatMap (fun t =>
        okRows (simulateReturnsForTicker (getFilingsForTicker dfIns t) download))) ∧
    portfolioRows dfIns
        (cl.filter (fun t =>
          !(okRows (simulateReturnsForTicker (getFilingsForTicker dfIns t) download)).isEmpty))
        download
      = portfolioRows dfIns cl download := by
  refine ⟨fun dfFilings hsd h => ?_, portfolioRows_eq_flatMap dfIns cl download hdt, ?_⟩
  · cases dfFilings with
    | nil => rfl
    | cons f rest =>
      simp only [simulateReturnsForTicker, hsd, Bool.false_eq_true, if_false]
      cases hA : avgDateOf (f :: rest) with
      | none => simp
      | some avg =>
        rcases h f.ticker avg with herr | hok
        · simp [herr]
        · simp [hok]
  · rw [portfolioRows_eq_flatMap dfIns _ download hdt,
      portfolioRows_eq_flatMap dfIns cl download hdt]
    congr 1
    induction cl with
    | nil => rfl
    | cons t ts ih =>
      by_cases hE :
          (okRows (simulateReturnsForTicker (getFilingsForTicker dfIns t) download)).isEmpty
            = true
      · have hnil : okRows (simulateReturnsForTicker (getFilingsForTicker dfIns t) download)
            = [] := List.isEmpty_iff.mp hE
        simp [List.filter_cons, hE, hnil, ih]
      · simp [List.filter_cons, hE, ih]

/-- C4 witness: on a concrete datetime-dated filings table, a collaborator
that always raises yields the empty frame, not an error. -/
theorem lookupFailure_skipped_witness :
    simulateReturnsForTicker [⟨"AAPL", "Purchase", DateVal.dt (some 0)⟩]
      (fun _ _ => Except.error ()) = Except.ok [] :=
  (lookupFailure_skipped [] [] (fun _ _ => Except.error ()) rfl).1
    [⟨"AAPL", "Purchase", DateVal.dt (some 0)⟩] rfl (fun _ _ => Or.inl rfl)

/-- C3: for a non-empty, datetime-dated filings table (the column shape on
which the average trade date is computable at all — a string-dated frame
faults at line 135 before any average exists) with a parsable average
trade date and a non-empty price history, the reported row's entry price
is the first close, the latest price the last close, and the percent
return is `(latest − entry) / entry × 100` computed on the unrounded
prices; each of the three is rounded to 2 decimals only in the reported
row. -/
theorem simulateReturns_formula (f : Row) (rest : List Row)
    (download : String → Int → Except Unit (List ℚ)) (avg : Int) (p : ℚ) (ps : List ℚ)
    (hdt : hasStrDate (f :: rest) = false)
    (havg : avgDateOf (f :: rest) = some avg)
    (hdl : download f.ticker avg = Except.ok (p :: ps)) :
    simulateReturnsForTicker (f :: rest) download =
      Except.ok
        [{ ticker := f.ticker, avgTradeDate := avg,
           entryPrice := round2 p,
           latestPrice := round2 ((p :: ps).getLast (List.cons_ne_nil p ps)),
           returnPct :=
             round2 (((p :: ps).getLast (List.cons_ne_nil p ps) - p) / p * 100) }] := by
  simp only [simulateReturnsForTicker, hdt, Bool.false_eq_true, if_false, havg, hdl]

/-- C3 witness: one filing dated day 100, history `[10, 15]` — entry 10,
latest 15, return 50%. -/
theorem simulateReturns_formula_witness :
    simulateReturnsForTicker [⟨"AAPL", "Purchase", DateVal.dt (some 100)⟩]
        (fun _ _ => Except.ok [10, 15])
      = Except.ok
          [{ ticker := "AAPL", avgTradeDate := 100, entryPrice := 10,
             latestPrice := 15, returnPct := 50 }] := by
  have havg : avgDateOf [⟨"AAPL", "Purchase", DateVal.dt (some 100)⟩] = some 100 := by
    norm_num [avgDateOf, datesOf, List.filterMap_cons, List.filterMap_nil,
      List.foldl_cons, List.foldl_nil]
  rw [simulateReturns_formula ⟨"AAPL", "Purchase", DateVal.dt (some 100)⟩ []
    (fun _ _ => Except.ok [10, 15]) 100 10 [15] rfl havg rfl]
  norm_num [round2, roundHalfEven, List.getLast]

/-- C7 (spec-modelled window): a record with a parsable date is in the
`recent` table iff its date is at least `now − days_back` — the lower bound
is inclusive, so a transaction dated exactly `now − days_back` is in the
window and one dated a day earlier is not. -/
theorem recentOf_inclusive_boundary (records : List SpecRecord) (now daysBack : Int)
    (r : SpecRecord) (d : Int) (hmem : r ∈ records)
    (hparse : parseSpecDate r.transactionDate = some d) :
    ((r, d) ∈ recentOf records now daysBack ↔ now - daysBack ≤ d) := by
  unfold recentOf
  rw [List.mem_filter]
  simp only [decide_eq_true_eq]
  constructor
  · rintro ⟨-, h⟩
    exact h
  · intro h
    refine ⟨?_, h⟩
    rw [List.mem_filterMap]
    exact ⟨r, hmem, by rw [hparse]; rfl⟩

/-- C7 witness: a record dated exactly `now − days_back` (here
2020-01-10 with `now` five days later and a 5-day window) is in `recent`. -/
theorem recentOf_inclusive_boundary_witness :
    ((⟨"Rep", "AAPL", "Purchase", "2020-01-10"⟩, daysFromCivil 2020 1 10) :
        SpecRecord × Int)
      ∈ recentOf [⟨"Rep", "AAPL", "Purchase", "2020-01-10"⟩]
          (daysFromCivil 2020 1 10 + 5) 5 :=
  (recentOf_inclusive_boundary [⟨"Rep", "AAPL", "Purchase", "2020-01-10"⟩]
      (daysFromCivil 2020 1 10 + 5) 5 ⟨"Rep", "AAPL", "Purchase", "2020-01-10"⟩
      (daysFromCivil 2020 1 10) (by decide) (by decide)).mpr (by simp)

theorem specCount_pos_iff {part : List (SpecRecord × Int)} {t : String} :
    0 < specCount part t ↔ t ∈ part.map (fun p => p.1.ticker) := by
  induction part with
  | nil => simp [specCount]
  | cons p ps ih =>
    by_cases h : p.1.ticker = t
    · simp [specCount, List.filter_cons, h]
    · have hne : ¬ t = p.1.ticker := fun hh => h hh.symm
      simp only [specCount, List.filter_cons, List.map_cons, List.mem_cons] at ih ⊢
      simp [h, hne, ih]

theorem mem_signalTickers {part : List (SpecRecord × Int)} {m : ℕ} {t : String}
    (hm : 0 < m) : t ∈ signalTickers part m ↔ m ≤ specCount part t := by
  unfold signalTickers
  rw [List.mem_filter, mem_dedupFirst]
  simp only [decide_eq_true_eq]
  constructor
  · rintro ⟨-, h⟩
    exact h
  · intro h
    exact ⟨specCount_pos_iff.mp (lt_of_lt_of_le hm h), h⟩

/-- C2 (spec-modelled): every ticker with at least `min_trades` rows whose
transaction type contains the case-sensitive substring `"Sale"` inside the
window is in `sell_tickers`; a ticker with both enough qualifying
purchases and enough qualifying sales is in both sets. (`min_trades` is a
cluster size, hence positive; the spec default is 3.) -/
theorem sellCluster_detected (records : List SpecRecord) (now daysBack : Int)
    (minTrades : ℕ) (t : String) (hpos : 0 < minTrades) :
    (minTrades ≤ specCount (sellsOf (recentOf records now daysBack)) t →
      t ∈ (detectSignals records now daysBack minTrades).2.1) ∧
    (minTrades ≤ specCount (buysOf (recentOf records now daysBack)) t →
     minTrades ≤ specCount (sellsOf (recentOf records now daysBack)) t →
      t ∈ (detectSignals records now daysBack minTrades).1 ∧
      t ∈ (detectSignals records now daysBack minTrades).2.1) :=
  ⟨fun hs => (mem_signalTickers hpos).mpr hs,
   fun hb hs => ⟨(mem_signalTickers hpos).mpr hb, (mem_signalTickers hpos).mpr hs⟩⟩

/-- C2 witness: three `"Purchase"` rows and three `"Sale (Full)"` rows for
`"TSLA"` in a 14-day window put `"TSLA"` in both signal sets. -/
theorem sellCluster_detected_witness :
    "TSLA" ∈ (detectSignals
        [⟨"A", "TSLA", "Purchase", "2024-01-05"⟩,
         ⟨"B", "TSLA", "Purchase", "2024-01-06"⟩,
         ⟨"C", "TSLA", "Purchase", "2024-01-07"⟩,
         ⟨"D", "TSLA", "Sale (Full)", "2024-01-05"⟩,
         ⟨"E", "TSLA", "Sale (Partial)", "2024-01-06"⟩,
         ⟨"F", "TSLA", "Sale (Full)", "2024-01-08"⟩]
        (daysFromCivil 2024 1 10) 14 3).1 ∧
    "TSLA" ∈ (detectSignals
        [⟨"A", "TSLA", "Purchase", "2024-01-05"⟩,
         ⟨"B", "TSLA", "Purchase", "2024-01-06"⟩,
         ⟨"C", "TSLA", "Purchase", "2024-01-07"⟩,
         ⟨"D", "TSLA", "Sale (Full)", "2024-01-05"⟩,
         ⟨"E", "TSLA", "Sale (Partial)", "2024-01-06"⟩,
         ⟨"F", "TSLA", "Sale (Full)", "2024-01-08"⟩]
        (daysFromCivil 2024 1 10) 14 3).2.1 :=
  (sellCluster_detected
      [⟨"A", "TSLA", "Purchase", "2024-01-05"⟩,
       ⟨"B", "TSLA", "Purchase", "2024-01-06"⟩,
       ⟨"C", "TSLA", "Purchase", "2024-01-07"⟩,
       ⟨"D", "TSLA", "Sale (Full)", "2024-01-05"⟩,
       ⟨"E", "TSLA", "Sale (Partial)", "2024-01-06"⟩,
       ⟨"F", "TSLA", "Sale (Full)", "2024-01-08"⟩]
      (daysFromCivil 2024 1 10) 14 3 "TSLA" (by decide)).2 (by decide) (by decide)

theorem find?_replaceCol (df : PriceTable) (n name : String) (v : List PVal)
    (h : name ≠ n) :
    (df.map (fun c => if c.1 = n then (n, v) else c)).find? (fun c => c.1 = name)
      = df.find? (fun c => c.1 = name) := by
  induction df with
  | nil => rfl
  | cons c cs ih =>
    by_cases hc : c.1 = n
    · have h1 : ¬ (n = name) := fun hh => h hh.symm
      have h2 : ¬ (c.1 = name) := by rw [hc]; exact h1
      simp [List.find?_cons, hc, h1, h2, ih]
    · by_cases hcn : c.1 = name
      · simp [List.find?_cons, hc, hcn, h]
      · simp [List.find?_cons, hc, hcn, ih]

theorem find?_appendCol (df : PriceTable) (n name : String) (v : List PVal)
    (h : name ≠ n) :
    (df ++ [(n, v)]).find? (fun c => c.1 = name) = df.find? (fun c => c.1 = name) := by
  induction df with
  | nil =>
    have h1 : ¬ (n = name) := fun hh => h hh.symm
    simp [List.find?_cons, h1]
  | cons c cs ih =>
    by_cases hcn : c.1 = name
    · simp [List.find?_cons, hcn]
    · simp [List.find?_cons, hcn, ih]

theorem getColEntry_setCol (df : PriceTable) (n name : String) (v : List PVal)
    (h : name ≠ n) : getColEntry (setCol df n v) name = getColEntry df name := by
  unfold getColEntry setCol
  by_cases hA : df.any (fun c => c.1 = n) = true
  · simp only [hA, ite_true]
    exact find?_replaceCol df n name v h
  · simp only [hA, ite_false, Bool.false_eq_true]
    exact find?_appendCol df n name v h

/-- C8 counterexample: `add_technical_indicators` mutates the caller's
frame in place — after the call on a one-column `Close` table the caller's
table carries two extra columns (`SMA_20`, `RSI`), so it does not hold
exactly the rows and columns it held before. -/
theorem addTechnicalIndicators_mutates_callerTable :
    addTechnicalIndicators_callerAfter [("Close", [])]
      = [("Close", []), ("SMA_20", []), ("RSI", [])] ∧
    addTechnicalIndicators_callerAfter [("Close", [])] ≠ [("Close", [])] := by
  refine ⟨rfl, ?_⟩
  decide

/-- C8 amended: the filtering, counting and return-simulation operations
leave the caller's table untouched (they work on fresh or copied frames),
while `add_technical_indicators` mutates the caller's frame in place by
assigning the `SMA_20` and `RSI` columns — but leaves every other column,
its name and its cells, unchanged. -/
theorem coreOps_mutation_profile (df : List Row) (t : String) (pdf : PriceTable)
    (name : String) (download : String → Int → Except Unit (List ℚ))
    (h1 : name ≠ "SMA_20") (h2 : name ≠ "RSI") :
    getFilingsForTicker_callerAfter df t = df ∧
    computeMostBought_callerAfter df = df ∧
    simulateReturnsForTicker_callerAfter df download = df ∧
    getColEntry (addTechnicalIndicators_callerAfter pdf) name = getColEntry pdf name := by
  refine ⟨rfl, rfl, rfl, ?_⟩
  simp only [addTechnicalIndicators_callerAfter, addTechnicalIndicators]
  rw [getColEntry_setCol _ _ _ _ h2, getColEntry_setCol _ _ _ _ h1]

/-- C8 amended witness: the `Close` column of a concrete frame survives
the in-place indicator augmentation unchanged. -/
theorem coreOps_mutation_profile_witness :
    getColEntry (addTechnicalIndicators_callerAfter [("Close", [])]) "Close"
      = getColEntry [("Close", [])] "Close" :=
  (coreOps_mutation_profile [] "T" [("Close", [])] "Close"
    (fun _ _ => Except.error ()) (by decide) (by decide)).2.2.2
